import Mathlib

/-!
Verification of the TelloWSBridge repository against its specification.

The development shallowly embeds the Python source:
  - `tello_bridge/protocols/command_protocol.py` (class TelloProtocol),
  - `tello_bridge/protocols/state_protocol.py` (class TelloStateProtocol),
  - `tello_bridge/protocols/base_protocol.py` (class BaseProtocol),
  - `tello_bridge/websocket/__init__.py`,
  - `tello_bridge/__init__.py` (class TelloBridge).
Stateful methods become explicit state-passing functions; each call also
returns the list of datagrams it transmits on the UDP transport, so that
transmission order is a provable fact.  Times and backoff delays are modelled
as exact rationals (every float the reconnect loop produces is a dyadic
rational, so no rounding occurs in the source either).  String-to-number
conversion follows CPython `int()` / `float()` on ASCII strings: surrounding
whitespace stripped, optional sign, PEP 515 underscores between digits, and
for `float()` optional fraction, exponent, and the special words
inf/infinity/nan; parsed float values are carried as exact rationals.
-/

namespace TelloWSBridge

/-! ### Command channel state (BaseProtocol + TelloProtocol fields)

`BaseProtocol.__init__` sets `self.transport = None`, `self.connected = False`,
`self.last_response_time = 0`; `TelloProtocol.__init__` adds
`self.command_queue = []`.  The transport object is abstracted to
`Option Unit`: `none` models Python `None`, `some ()` models a live transport. -/

structure CmdChannel where
  transport : Option Unit
  connected : Bool
  command_queue : List String
  last_response_time : ℚ
deriving DecidableEq, Repr

/-- Initial state produced by `BaseProtocol.__init__` / `TelloProtocol.__init__`. -/
def initCmdChannel : CmdChannel :=
  { transport := none, connected := false, command_queue := [], last_response_time := 0 }

namespace TelloProtocol

/-- Embedding of `TelloProtocol.send_to_tello(message)`.  Returns the updated
state together with the list of datagrams handed to `transport.sendto` by this
call.  When not connected the message is appended to `command_queue` and the
method returns; when connected but the transport is `None` the message is
dropped with only a warning logged. -/
def send_to_tello (st : CmdChannel) (message : String) : CmdChannel × List String :=
  if st.connected = false then
    ({ st with command_queue := st.command_queue ++ [message] }, [])
  else if st.transport = none then
    (st, [])
  else
    (st, [message])

/-- Sequential sends of a list of commands, threading the channel state and
concatenating the transmitted datagrams.  This is the `for cmd in
self.command_queue: self.send_to_tello(cmd)` loop of
`_process_command_queue`; the loop iterates the snapshot taken at entry (its
only call site, `connection_made`, runs it with `connected = True`, where
`send_to_tello` never mutates the queue). -/
def sendAll (st : CmdChannel) (cmds : List String) : CmdChannel × List String :=
  match cmds with
  | [] => (st, [])
  | c :: rest =>
    let r1 := send_to_tello st c
    let r2 := sendAll r1.1 rest
    (r2.1, r1.2 ++ r2.2)

/-- Embedding of `TelloProtocol._process_command_queue()`: if the queue is
empty return at once, otherwise send every queued command and then assign
`self.command_queue = []`. -/
def process_command_queue (st : CmdChannel) : CmdChannel × List String :=
  if st.command_queue.isEmpty then
    (st, [])
  else
    let r := sendAll st st.command_queue
    ({ r.1 with command_queue := [] }, r.2)

/-- Embedding of `TelloProtocol.connection_made(transport)`:
`super().connection_made` stores the transport and sets `connected = True`,
then `_process_command_queue()` runs, then `send_to_tello("command")` sends
the liveness-establishing probe. -/
def connection_made (st : CmdChannel) : CmdChannel × List String :=
  let st0 := { st with transport := some (), connected := true }
  let r1 := process_command_queue st0
  let r2 := send_to_tello r1.1 "command"
  (r2.1, r1.2 ++ r2.2)

/-- One JSON envelope `{"origin": ..., "data": ...}` that
`TelloProtocol.datagram_received` builds for a decoded text datagram. -/
structure CommandEnvelope where
  origin : String
  data : String
deriving DecidableEq, Repr

/-- Embedding of `TelloProtocol.datagram_received(data, addr)` for a datagram
that decodes as UTF-8 text: it updates `last_response_time` to the current
event-loop time, wraps the text in the command-origin envelope and schedules
(`asyncio.create_task`) a broadcast of that envelope.  The second component is
the list of broadcasts scheduled — scheduling returns immediately, so the
method never waits for any WebSocket client. -/
def datagram_received (st : CmdChannel) (message : String) (now : ℚ) :
    CmdChannel × List CommandEnvelope :=
  ({ st with last_response_time := now }, [{ origin := "command", data := message }])

end TelloProtocol

/-! ### Python numeral parsing (`int(value)` / `float(value)` on strings) -/

/-- Characters stripped by Python `str.strip()` (ASCII whitespace). -/
def isPySpace (c : Char) : Bool :=
  c == ' ' || c == '\t' || c == '\n' || c == '\r' || c == '\x0b' || c == '\x0c'

/-- Strip leading and trailing ASCII whitespace from a character list. -/
def pyStripChars (cs : List Char) : List Char :=
  ((cs.dropWhile isPySpace).reverse.dropWhile isPySpace).reverse

/-- Embedding of Python `str.strip()` (as used on the raw state line and by
`int()` / `float()` on their string argument). -/
def pyStrip (s : String) : String :=
  String.mk (pyStripChars s.data)

/-- Decimal digit run with PEP 515 underscores: after the first digit, an
underscore must be followed by a digit and never doubled.  Accumulates the
value and the number of digits consumed (underscores excluded). -/
def udAux (acc : ℕ) (cnt : ℕ) : List Char → Option (ℕ × ℕ)
  | [] => some (acc, cnt)
  | c :: rest =>
    if c.isDigit then
      udAux (acc * 10 + (c.toNat - 48)) (cnt + 1) rest
    else if c == '_' then
      match rest with
      | [] => none
      | d :: rest2 =>
        if d.isDigit then udAux (acc * 10 + (d.toNat - 48)) (cnt + 1) rest2 else none
    else none

/-- A non-empty digit run (PEP 515 underscores allowed between digits),
returning its value and digit count; `none` when the characters are not such
a run. -/
def udDigits : List Char → Option (ℕ × ℕ)
  | [] => none
  | c :: rest => if c.isDigit then udAux (c.toNat - 48) 1 rest else none

/-- Embedding of Python `int(value)` on a string: strip whitespace, optional
sign, then a digit run.  `none` models a raised `ValueError`. -/
def pyInt (s : String) : Option ℤ :=
  match pyStripChars s.data with
  | '+' :: rest => (udDigits rest).map (fun p => (p.1 : ℤ))
  | '-' :: rest => (udDigits rest).map (fun p => -(p.1 : ℤ))
  | cs => (udDigits cs).map (fun p => (p.1 : ℤ))

/-- Value of a Python float built from a string: a finite value (carried as an
exact rational), a signed infinity, or nan. -/
inductive PyNum where
  | finite (q : ℚ)
  | inf (neg : Bool)
  | nan
deriving DecidableEq, Repr

/-- Negation applied when the string starts with a minus sign. -/
def pyNumNeg : PyNum → PyNum
  | .finite q => .finite (-q)
  | .inf b => .inf (!b)
  | .nan => .nan

/-- Split a character list at the first occurrence of a given marker character
(used for the exponent marker and the decimal point), returning the part
before it and, when present, the part after it. -/
def splitAtChar (isMark : Char → Bool) : List Char → List Char × Option (List Char)
  | [] => ([], none)
  | c :: rest =>
    if isMark c then ([], some rest)
    else
      let r := splitAtChar isMark rest
      (c :: r.1, r.2)

/-- Mantissa of a float literal: `digits`, `digits.`, `.digits` or
`digits.digits`, evaluated as an exact rational. -/
def parseMantissa (cs : List Char) : Option ℚ :=
  let r := splitAtChar (fun c => c == '.') cs
  match r.2 with
  | none => (udDigits r.1).map (fun p => (p.1 : ℚ))
  | some fp =>
    match r.1, fp with
    | [], [] => none
    | [], _ => (udDigits fp).map (fun p => (p.1 : ℚ) / 10 ^ p.2)
    | _, [] => (udDigits r.1).map (fun p => (p.1 : ℚ))
    | _, _ => do
      let i ← udDigits r.1
      let f ← udDigits fp
      pure ((i.1 : ℚ) + (f.1 : ℚ) / 10 ^ f.2)

/-- Signed integer exponent after the `e` / `E` marker. -/
def parseExponent (cs : List Char) : Option ℤ :=
  match cs with
  | '+' :: rest => (udDigits rest).map (fun p => (p.1 : ℤ))
  | '-' :: rest => (udDigits rest).map (fun p => -(p.1 : ℤ))
  | _ => (udDigits cs).map (fun p => (p.1 : ℤ))

/-- Unsigned part of Python `float(value)`: the words inf / infinity / nan
(case-insensitive) or a decimal literal with optional exponent. -/
def pyFloatBody (cs : List Char) : Option PyNum :=
  let low := cs.map Char.toLower
  if low = ['i', 'n', 'f'] || low = ['i', 'n', 'f', 'i', 'n', 'i', 't', 'y'] then
    some (.inf false)
  else if low = ['n', 'a', 'n'] then
    some .nan
  else
    let r := splitAtChar (fun c => c == 'e' || c == 'E') cs
    match r.2 with
    | none => (parseMantissa r.1).map (fun q => .finite q)
    | some ecs => do
      let m ← parseMantissa r.1
      let e ← parseExponent ecs
      pure (.finite (m * 10 ^ e))

/-- Embedding of Python `float(value)` on a string: strip whitespace, optional
sign, then the unsigned float syntax.  `none` models a raised `ValueError`;
values are exact rationals (the claims checked here depend only on which
strings convert, never on rounding). -/
def pyFloat (s : String) : Option PyNum :=
  match pyStripChars s.data with
  | '+' :: rest => pyFloatBody rest
  | '-' :: rest => (pyFloatBody rest).map pyNumNeg
  | cs => pyFloatBody cs

/-! ### Telemetry parsing (`TelloStateProtocol`) -/

/-- Declared numeric kind of a known telemetry field (the Python classes
`int` / `float` stored in `self.state_types`). -/
inductive NumKind where
  | kInt
  | kFloat
deriving DecidableEq, Repr

/-- A parsed telemetry value: converted integer, converted float, or the
original string when no conversion applies or conversion fails. -/
inductive FieldValue where
  | vInt (n : ℤ)
  | vFloat (x : PyNum)
  | vStr (s : String)
deriving DecidableEq, Repr

/-- Embedding of `self.state_types` from `TelloStateProtocol.__init__`, in
source order. -/
def state_types : List (String × NumKind) :=
  [("mid", .kInt), ("x", .kInt), ("y", .kInt), ("z", .kInt),
   ("pitch", .kFloat), ("roll", .kFloat), ("yaw", .kFloat),
   ("vgx", .kFloat), ("vgy", .kFloat), ("vgz", .kFloat),
   ("templ", .kFloat), ("temph", .kFloat), ("tof", .kFloat),
   ("h", .kFloat), ("bat", .kFloat), ("baro", .kFloat),
   ("time", .kFloat), ("agx", .kFloat), ("agy", .kFloat), ("agz", .kFloat)]

/-- Embedding of `self.state_descriptions` from `TelloStateProtocol.__init__`,
in source order. -/
def state_descriptions : List (String × String) :=
  [("mid", "Mission Pad ID (-1 if not detected)"),
   ("x", "X coordinate on Mission Pad (0 if not detected)"),
   ("y", "Y coordinate on Mission Pad (0 if not detected)"),
   ("z", "Z coordinate on Mission Pad (0 if not detected)"),
   ("pitch", "Attitude pitch in degrees"),
   ("roll", "Attitude roll in degrees"),
   ("yaw", "Attitude yaw in degrees"),
   ("vgx", "Speed on X axis"),
   ("vgy", "Speed on Y axis"),
   ("vgz", "Speed on Z axis"),
   ("templ", "Lowest temperature in °C"),
   ("temph", "Highest temperature in °C"),
   ("tof", "Time of flight distance in cm"),
   ("h", "Height in cm"),
   ("bat", "Battery percentage"),
   ("baro", "Barometer measurement in cm"),
   ("time", "Motor time in seconds"),
   ("agx", "Acceleration on X axis"),
   ("agy", "Acceleration on Y axis"),
   ("agz", "Acceleration on Z axis")]

/-- `key in self.state_types` / `self.state_types[key]` as one lookup. -/
def lookupType (k : String) : Option NumKind :=
  (state_types.find? (fun p => p.1 == k)).map (fun p => p.2)

/-- `self.state_descriptions.get(key, "Unknown parameter")`. -/
def lookupDescription (k : String) : Option String :=
  (state_descriptions.find? (fun p => p.1 == k)).map (fun p => p.2)

/-- Description attached to a field in the broadcast envelope, default
included. -/
def descriptionOf (k : String) : String :=
  (lookupDescription k).getD "Unknown parameter"

/-- The `try: value = self.state_types[key](value) except ValueError: pass`
block: convert when the key is known and conversion succeeds, otherwise keep
the original string. -/
def convertValue (k v : String) : FieldValue :=
  match lookupType k with
  | none => .vStr v
  | some .kInt =>
    match pyInt v with
    | some n => .vInt n
    | none => .vStr v
  | some .kFloat =>
    match pyFloat v with
    | some x => .vFloat x
    | none => .vStr v

/-- `pair.split(':', 1)` guarded by `':' in pair`: split at the first colon,
`none` when the segment has no colon (which also covers the
`if not pair: continue` branch, an empty segment having no colon). -/
def segSplitChars : List Char → Option (List Char × List Char)
  | [] => none
  | c :: rest =>
    if c == ':' then some ([], rest)
    else (segSplitChars rest).map (fun p => (c :: p.1, p.2))

/-- Key/value split of one `;`-separated segment. -/
def segSplit (seg : String) : Option (String × String) :=
  (segSplitChars seg.data).map (fun p => (String.mk p.1, String.mk p.2))

/-- Python dict insertion `state_data[key] = value`: overwrite in place when
the key is present, append otherwise (insertion order of first occurrence is
preserved). -/
def dictInsert (d : List (String × FieldValue)) (k : String) (v : FieldValue) :
    List (String × FieldValue) :=
  if d.any (fun p => p.1 == k) then
    d.map (fun p => if p.1 == k then (k, v) else p)
  else
    d ++ [(k, v)]

/-- Loop body of `parse_state_data`: skip segments without a colon (empty or
malformed), otherwise convert and store. -/
def parseStep (acc : List (String × FieldValue)) (seg : String) :
    List (String × FieldValue) :=
  match segSplit seg with
  | some kv => dictInsert acc kv.1 (convertValue kv.1 kv.2)
  | none => acc

/-- The `state_string.split(';')` loop, written on character lists:
accumulate the current segment until a `;` is met; the segment after the last
separator is always emitted, so a trailing `;` yields a trailing empty
segment, exactly as Python `str.split` does. -/
def splitSemisAux (cs : List Char) (cur : List Char) : List (List Char) :=
  match cs with
  | [] => [cur.reverse]
  | c :: rest =>
    if c == ';' then cur.reverse :: splitSemisAux rest []
    else splitSemisAux rest (c :: cur)

/-- `pairs = state_string.split(';')` applied to the stripped line. -/
def lineSegments (s : String) : List String :=
  (splitSemisAux (pyStripChars s.data) []).map String.mk

/-- Embedding of `TelloStateProtocol.parse_state_data(state_string)`:
strip the line, split on `;`, and fold the per-segment processing into the
(insertion-ordered) dictionary. -/
def parse_state_data (s : String) : List (String × FieldValue) :=
  (lineSegments s).foldl parseStep []

/-- Dictionary lookup `state_data[k]` on the association-list model. -/
def dictLookup (d : List (String × FieldValue)) (k : String) : Option FieldValue :=
  (d.find? (fun p => p.1 == k)).map (fun p => p.2)

/-- Whether some segment of the (stripped) line carries key `k`, i.e. splits
as `k:value`. -/
def lineHasKey (s k : String) : Bool :=
  (lineSegments s).any (fun seg =>
    match segSplit seg with
    | some kv => kv.1 == k
    | none => false)

/-- Value of the last segment of a segment list whose key is `k` (Python dict
assignment makes the last occurrence win). -/
def lastValSegs (k : String) : List String → Option String
  | [] => none
  | seg :: rest =>
    match lastValSegs k rest with
    | some v => some v
    | none =>
      match segSplit seg with
      | some kv => if kv.1 == k then some kv.2 else none
      | none => none

/-- Value of the last `k:value` segment of the raw line. -/
def lastValue (s k : String) : Option String :=
  lastValSegs k (lineSegments s)

/-- Per-field entry of the broadcast state envelope built by
`TelloStateProtocol.datagram_received`: value plus
`self.state_descriptions.get(key, "Unknown parameter")`. -/
def envelopeFields (s : String) : List (String × FieldValue × String) :=
  (parse_state_data s).map (fun p => (p.1, p.2, descriptionOf p.1))

/-- Lookup of one field of the broadcast envelope. -/
def envLookup (s k : String) : Option (FieldValue × String) :=
  ((envelopeFields s).find? (fun p => p.1 == k)).map (fun p => p.2)

/-! ### Reconnection loop (`TelloProtocol._reconnect`) -/

/-- Embedding of the `while not self.connected and retries < max_retries`
loop of `TelloProtocol._reconnect`.  `conn i` is the value `self.connected`
has when the loop condition is checked after `i` completed iterations (the
connection can be re-established concurrently by `connection_made`).  The
result is the list of delays slept, in order: each iteration signals a
reconnect attempt, sleeps `retry_delay`, increments `retries` and updates
`retry_delay = min(30, retry_delay * 1.5)` (all values are exact dyadic
rationals, so the float arithmetic of the source is exact too). -/
def reconnectDelays (conn : ℕ → Bool) (retries : ℕ) (retry_delay : ℚ) : List ℚ :=
  if h : conn retries = false ∧ retries < 10 then
    retry_delay :: reconnectDelays conn (retries + 1) (min 30 (retry_delay * (3 / 2)))
  else
    []
termination_by 10 - retries
decreasing_by omega

/-- Embedding of `TelloProtocol._reconnect()`: run the retry loop with
`retry_delay = 5`, `max_retries = 10`, `retries = 0`; afterwards
`if not self.connected: logger.error(...)` reports the unhealthy condition.
Returns the slept delays and whether the final unhealthy report fired. -/
def tello_reconnect (conn : ℕ → Bool) : List ℚ × Bool :=
  let ds := reconnectDelays conn 0 5
  (ds, ! conn ds.length)

/-! ### Health monitor (`TelloBridge._health_monitor`) -/

/-- Default `check_interval` of `_health_monitor` (the period of the tick). -/
def health_check_interval : ℚ := 10

/-- Silence threshold of the health check, in time units. -/
def health_silence_threshold : ℚ := 15

/-- Result of one body execution of the `_health_monitor` loop: whether the
silence warning fired and which probe commands were sent. -/
structure HealthTick where
  warned : Bool
  sends : List String
deriving DecidableEq, Repr

/-- Embedding of one iteration of `TelloBridge._health_monitor` (after the
sleep): when `self.tello_protocol` exists and is connected, the silence check
`last_response_time > 0 and current_time - last_response_time > 15` guards
both the warning and the single `send_to_tello("command")` probe.  The
reconnect-flag branch of the same loop touches no probe and is modelled with
the bridge flags below. -/
def healthMonitorTick (protoExists connected : Bool) (last now : ℚ) : HealthTick :=
  if protoExists = true ∧ connected = true then
    if 0 < last ∧ health_silence_threshold < now - last then
      { warned := true, sends := ["command"] }
    else
      { warned := false, sends := [] }
  else
    { warned := false, sends := [] }

/-! ### WebSocket client registry and broadcast (`tello_bridge/websocket`) -/

/-- A WebSocket client handle; identity is the transport handle only. -/
abbrev WSClient := ℕ

/-- Outcome of one `ws.send(message)` task: success, a raised exception, or a
timeout.  With `return_exceptions=True` these become values gathered into the
result list, never exceptions re-raised to the caller. -/
inductive SendOutcome where
  | ok
  | failed (error : String)
  | timedOut
deriving DecidableEq, Repr

/-- Initial value of the module-level `connected_websockets` set. -/
def connected_websockets_init : Finset WSClient := ∅

/-- `connected_websockets.add(websocket)` in `handle_websocket`. -/
def ws_register (s : Finset WSClient) (c : WSClient) : Finset WSClient :=
  insert c s

/-- `connected_websockets.remove(websocket)` in the `finally` block of
`handle_websocket`; Python `set.remove` raises `KeyError` when the element is
absent, modelled by `none`. -/
def ws_unregister (s : Finset WSClient) (c : WSClient) : Option (Finset WSClient) :=
  if c ∈ s then some (s.erase c) else none

/-- Embedding of `broadcast_to_websockets(message)`: when clients are
registered, one `ws.send(message)` task is created per client and the tasks
are awaited with `asyncio.gather(*tasks, return_exceptions=True)`.  `sendFn`
gives each client's own outcome; gather with `return_exceptions=True` runs
every task to completion and returns all outcomes as values, so the result is
the full list of per-client outcomes and the call never raises. -/
def broadcast_to_websockets (clients : List WSClient)
    (sendFn : WSClient → SendOutcome) : List (WSClient × SendOutcome) :=
  if clients.isEmpty then [] else clients.map (fun c => (c, sendFn c))

/-! ### The reconnect-requested flag across modules (`need_reconnect`)

`tello_bridge/protocols/command_protocol.py` ends with the module-level
binding `need_reconnect = False`.  `tello_bridge/__init__.py` runs
`from .protocols.command_protocol import TelloProtocol, need_reconnect`,
which copies the current value (`False`) into a second, independent binding
`tello_bridge.need_reconnect`.  A `global need_reconnect` statement refers to
the module the function is defined in, so `TelloProtocol._reconnect` rebinds
`command_protocol.need_reconnect` while `TelloBridge._main_loop` and
`TelloBridge._health_monitor` read and rebind `tello_bridge.need_reconnect`.
The state below carries both bindings. -/

structure BridgeFlags where
  command_protocol_need_reconnect : Bool
  tello_bridge_need_reconnect : Bool
  rebuilds : ℕ
  settle_waits : List ℚ
  probes_after_rebuild : ℕ
deriving DecidableEq, Repr

/-- Both module-level bindings at import time. -/
def initBridgeFlags : BridgeFlags :=
  { command_protocol_need_reconnect := false, tello_bridge_need_reconnect := false,
    rebuilds := 0, settle_waits := [], probes_after_rebuild := 0 }

/-- The `need_reconnect = True` statement executed by each iteration of
`TelloProtocol._reconnect` (under `global need_reconnect` inside
`command_protocol.py`, so it rebinds that module's variable). -/
def reconnectSignal (s : BridgeFlags) : BridgeFlags :=
  { s with command_protocol_need_reconnect := true }

/-- One iteration of `TelloBridge._main_loop` (under `global need_reconnect`
inside `tello_bridge/__init__.py`): when that module's `need_reconnect` copy
is true, close and rebuild the command transport, clear the flag, sleep 2
time units and re-send "command"; otherwise sleep 1 and loop. -/
def mainLoopIter (s : BridgeFlags) : BridgeFlags :=
  if s.tello_bridge_need_reconnect = true then
    { s with rebuilds := s.rebuilds + 1,
             tello_bridge_need_reconnect := false,
             settle_waits := s.settle_waits ++ [2],
             probes_after_rebuild := s.probes_after_rebuild + 1 }
  else
    s

/-! ### Helper lemmas: the association-list dictionary -/

theorem dictLookup_map_overwrite (k : String) (v : FieldValue) :
    ∀ d : List (String × FieldValue), d.any (fun p => p.1 == k) = true →
      dictLookup (d.map (fun p => if p.1 == k then (k, v) else p)) k = some v := by
  intro d
  induction d with
  | nil => intro h; simp at h
  | cons p rest ih =>
    intro h
    by_cases hp : p.1 = k
    · simp [dictLookup, List.find?, hp]
    · have hp2 : (p.1 == k) = false := by simp [hp]
      simp only [List.any_cons, hp2, Bool.false_or] at h
      simp only [List.map_cons, hp2, Bool.false_eq_true, if_false, dictLookup, List.find?]
      exact ih h

theorem dictLookup_append_single (k : String) (v : FieldValue) :
    ∀ d : List (String × FieldValue), d.any (fun p => p.1 == k) = false →
      dictLookup (d ++ [(k, v)]) k = some v := by
  intro d
  induction d with
  | nil => intro _; simp [dictLookup, List.find?]
  | cons p rest ih =>
    intro h
    simp only [List.any_cons, Bool.or_eq_false_iff] at h
    simp only [List.cons_append, dictLookup, List.find?, h.1]
    exact ih h.2

theorem dictLookup_dictInsert_self (d : List (String × FieldValue)) (k : String)
    (v : FieldValue) : dictLookup (dictInsert d k v) k = some v := by
  by_cases h : d.any (fun p => p.1 == k)
  · simp only [dictInsert, if_pos h]
    exact dictLookup_map_overwrite k v d h
  · simp only [dictInsert, if_neg h]
    exact dictLookup_append_single k v d (Bool.not_eq_true _ ▸ eq_false_of_ne_true h)

theorem find?_map_overwrite_ne (k k2 : String) (v : FieldValue) (hne : k2 ≠ k) :
    ∀ d : List (String × FieldValue),
      (d.map (fun p => if p.1 == k then (k, v) else p)).find? (fun p => p.1 == k2) =
        d.find? (fun p => p.1 == k2) := by
  intro d
  have h1 : (k == k2) = false := by
    simp only [beq_eq_false_iff_ne]
    exact fun hk => hne hk.symm
  induction d with
  | nil => rfl
  | cons p rest ih =>
    by_cases hp : p.1 = k
    · have hp2 : (p.1 == k) = true := by simp [hp]
      have h2 : (p.1 == k2) = false := by rw [hp]; exact h1
      simp only [List.map_cons, hp2, if_true, List.find?, h1, h2]
      exact ih
    · have hp2 : (p.1 == k) = false := by simp [hp]
      simp only [List.map_cons, hp2, Bool.false_eq_true, if_false, List.find?]
      by_cases hq : p.1 = k2
      · simp [hq]
      · have hq2 : (p.1 == k2) = false := by simp [hq]
        simp only [hq2]
        exact ih

theorem dictLookup_dictInsert_ne (d : List (String × FieldValue)) (k k2 : String)
    (v : FieldValue) (hne : k2 ≠ k) :
    dictLookup (dictInsert d k v) k2 = dictLookup d k2 := by
  by_cases h : d.any (fun p => p.1 == k)
  · simp only [dictInsert, if_pos h, dictLookup]
    rw [find?_map_overwrite_ne k k2 v hne d]
  · simp only [dictInsert, if_neg h, dictLookup, List.find?_append]
    have h1 : (k == k2) = false := by
      simp [beq_eq_false_iff_ne]
      exact fun hk => hne hk.symm
    simp [List.find?, h1]

/-! ### Helper lemmas: `parse_state_data` as a fold over segments -/

theorem parse_foldl_lookup (k : String) :
    ∀ (segs : List String) (acc : List (String × FieldValue)),
      dictLookup (segs.foldl parseStep acc) k =
        match lastValSegs k segs with
        | some v => some (convertValue k v)
        | none => dictLookup acc k := by
  intro segs
  induction segs with
  | nil => intro acc; simp [lastValSegs]
  | cons seg rest ih =>
    intro acc
    simp only [List.foldl_cons]
    rw [ih (parseStep acc seg)]
    cases hrest : lastValSegs k rest with
    | some v => simp [lastValSegs, hrest]
    | none =>
      cases hseg : segSplit seg with
      | none => simp [lastValSegs, hrest, hseg, parseStep]
      | some kv =>
        by_cases hk : kv.1 = k
        · have hk2 : (kv.1 == k) = true := by simp [hk]
          simp only [lastValSegs, hrest, hseg, hk2, if_true, parseStep]
          rw [hk, dictLookup_dictInsert_self]
        · have hk2 : (kv.1 == k) = false := by simp [hk]
          simp only [lastValSegs, hrest, hseg, hk2, Bool.false_eq_true, if_false, parseStep]
          rw [dictLookup_dictInsert_ne _ _ _ _ (fun hcon => hk hcon.symm)]

theorem parse_lookup_eq (s k : String) :
    dictLookup (parse_state_data s) k =
      match lastValue s k with
      | some v => some (convertValue k v)
      | none => none := by
  unfold parse_state_data lastValue
  rw [parse_foldl_lookup k _ []]
  cases lastValSegs k (lineSegments s) <;> simp [dictLookup]

theorem lastValSegs_isSome_eq_any (k : String) :
    ∀ segs : List String,
      (lastValSegs k segs).isSome =
        segs.any (fun seg =>
          match segSplit seg with
          | some kv => kv.1 == k
          | none => false) := by
  intro segs
  induction segs with
  | nil => rfl
  | cons seg rest ih =>
    simp only [lastValSegs, List.any_cons]
    cases hrest : lastValSegs k rest with
    | some v => simp [← ih, hrest]
    | none =>
      simp only [← ih, hrest]
      cases hseg : segSplit seg with
      | none => simp
      | some kv =>
        by_cases hk : kv.1 == k <;> simp [hk]

theorem isSome_map_snd (X : Option (String × FieldValue)) :
    (X.map (fun p => p.2)).isSome = X.isSome := by
  cases X <;> rfl

theorem parse_mem_key_iff (s k : String) :
    (∃ p ∈ parse_state_data s, p.1 = k) ↔ lineHasKey s k = true := by
  have h1 : (∃ p ∈ parse_state_data s, p.1 = k) ↔
      (dictLookup (parse_state_data s) k).isSome = true := by
    unfold dictLookup
    rw [isSome_map_snd, List.find?_isSome]
    constructor
    · rintro ⟨p, hp, he⟩
      exact ⟨p, hp, by simp [he]⟩
    · rintro ⟨p, hp, he⟩
      exact ⟨p, hp, by simpa using he⟩
  rw [h1, parse_lookup_eq s k]
  unfold lineHasKey lastValue
  rw [← lastValSegs_isSome_eq_any]
  cases lastValSegs k (lineSegments s) <;> simp

/-! ### Claims about the telemetry parser -/

/-- C2: for every telemetry line of semicolon-separated `key:value` pairs,
`parse_state_data` returns a field map whose keys are exactly the keys present
in the line (empty segments skipped, duplicate keys overwriting earlier
values, so the stored value comes from the last occurrence), the map never
contains a key absent from the raw line, and for every key declared in the
field descriptor whose value is a syntactically valid numeral the mapped value
has the declared numeric kind (integer for mid/x/y/z, floating-point for the
sixteen others, as listed in `state_types`). -/
theorem parse_state_data_spec (s k : String) :
    ((∃ p ∈ parse_state_data s, p.1 = k) ↔ lineHasKey s k = true)
    ∧ (∀ v n, lastValue s k = some v → lookupType k = some NumKind.kInt →
        pyInt v = some n →
        dictLookup (parse_state_data s) k = some (FieldValue.vInt n))
    ∧ (∀ v x, lastValue s k = some v → lookupType k = some NumKind.kFloat →
        pyFloat v = some x →
        dictLookup (parse_state_data s) k = some (FieldValue.vFloat x)) := by
  refine ⟨parse_mem_key_iff s k, ?_, ?_⟩
  · intro v n hv ht hn
    rw [parse_lookup_eq s k, hv]
    simp [convertValue, ht, hn]
  · intro v x hv ht hx
    rw [parse_lookup_eq s k, hv]
    simp [convertValue, ht, hx]

/-- Witness for C2 on the spec's example line: "mid" parses as the integer -1
and "bat" as the float 87. -/
theorem parse_state_data_spec_witness :
    dictLookup (parse_state_data "mid:-1;x:0;y:0;bat:87;") "mid" =
        some (FieldValue.vInt (-1))
    ∧ dictLookup (parse_state_data "mid:-1;x:0;y:0;bat:87;") "bat" =
        some (FieldValue.vFloat (PyNum.finite 87)) :=
  ⟨(parse_state_data_spec "mid:-1;x:0;y:0;bat:87;" "mid").2.1 "-1" (-1)
      (by decide) (by decide) (by decide),
   (parse_state_data_spec "mid:-1;x:0;y:0;bat:87;" "bat").2.2 "87" (PyNum.finite 87)
      (by decide) (by decide) (by decide)⟩

/-- C3: for every line and every key declared in the field descriptor whose
value is a malformed numeral, `parse_state_data` keeps the original string for
that key, and (being a total function that never raises) still returns an
entry for every key present anywhere in the line — per-field degradation,
never frame-level failure. -/
theorem parse_state_data_malformed_fallback (s k : String) :
    (∀ v, lastValue s k = some v → lookupType k = some NumKind.kInt →
        pyInt v = none →
        dictLookup (parse_state_data s) k = some (FieldValue.vStr v))
    ∧ (∀ v, lastValue s k = some v → lookupType k = some NumKind.kFloat →
        pyFloat v = none →
        dictLookup (parse_state_data s) k = some (FieldValue.vStr v))
    ∧ (∀ k2 : String, lineHasKey s k2 = true →
        (dictLookup (parse_state_data s) k2).isSome = true) := by
  refine ⟨?_, ?_, ?_⟩
  · intro v hv ht hn
    rw [parse_lookup_eq s k, hv]
    simp [convertValue, ht, hn]
  · intro v hv ht hx
    rw [parse_lookup_eq s k, hv]
    simp [convertValue, ht, hx]
  · intro k2 hk2
    rw [parse_lookup_eq s k2]
    unfold lineHasKey at hk2
    have h2 : (lastValue s k2).isSome = true := by
      unfold lastValue
      rw [lastValSegs_isSome_eq_any]
      exact hk2
    cases hlv : lastValue s k2 with
    | none => rw [hlv] at h2; simp at h2
    | some v => simp

/-- Witness for C3 on the spec's example: `parse("bat:abc")` keeps "abc" as a
string for "bat" and raises nothing. -/
theorem parse_state_data_malformed_fallback_witness :
    dictLookup (parse_state_data "bat:abc") "bat" = some (FieldValue.vStr "abc")
    ∧ (dictLookup (parse_state_data "bat:abc") "bat").isSome = true :=
  ⟨(parse_state_data_malformed_fallback "bat:abc" "bat").2.1 "abc"
      (by decide) (by decide) (by decide),
   (parse_state_data_malformed_fallback "bat:abc" "bat").2.2 "bat" (by decide)⟩

/-- C8 counterexample: the claim says a field whose key is absent from the
field descriptor gets the description "unknown" in the broadcast envelope;
on the concrete line "foo:bar" the code attaches "Unknown parameter", which
is not the string "unknown". -/
theorem unknown_field_description_counterexample :
    envLookup "foo:bar" "foo" =
        some (FieldValue.vStr "bar", "Unknown parameter")
    ∧ "Unknown parameter" ≠ "unknown" := by
  constructor
  · decide
  · decide

/-- C8 as amended: a parsed field whose key is absent from the field
descriptor (neither in `state_types` nor in `state_descriptions`) passes
through as a string verbatim, and the broadcast state envelope gives it the
description "Unknown parameter". -/
theorem unknown_field_passthrough (s k v : String) (hv : lastValue s k = some v)
    (ht : lookupType k = none) (hd : lookupDescription k = none) :
    envLookup s k = some (FieldValue.vStr v, "Unknown parameter") := by
  have hlook : dictLookup (parse_state_data s) k = some (FieldValue.vStr v) := by
    rw [parse_lookup_eq s k, hv]
    simp [convertValue, ht]
  unfold dictLookup at hlook
  cases hfind : (parse_state_data s).find? (fun p => p.1 == k) with
  | none => rw [hfind] at hlook; simp at hlook
  | some p0 =>
    rw [hfind] at hlook
    have hp0k : p0.1 = k := by
      have := List.find?_some hfind
      simpa using this
    have hp0v : p0.2 = FieldValue.vStr v := by simpa using hlook
    have hdesc : descriptionOf p0.1 = "Unknown parameter" := by
      rw [hp0k]
      unfold descriptionOf
      rw [hd]
      rfl
    unfold envLookup envelopeFields
    rw [List.find?_map]
    have hcomp :
        ((fun q : String × FieldValue × String => q.1 == k) ∘
          (fun p : String × FieldValue => (p.1, p.2, descriptionOf p.1))) =
        (fun p : String × FieldValue => p.1 == k) := by
      funext p
      rfl
    rw [hcomp, hfind]
    simp [hp0v, hdesc]

/-- Witness for C8 as amended, on the line "foo:bar". -/
theorem unknown_field_passthrough_witness :
    envLookup "foo:bar" "foo" = some (FieldValue.vStr "bar", "Unknown parameter") :=
  unknown_field_passthrough "foo:bar" "foo" "bar" (by decide) (by decide) (by decide)

/-! ### Claims about the command channel queue -/

theorem sendAll_connected (cmds : List String) :
    ∀ st : CmdChannel, st.connected = true → st.transport = some () →
      TelloProtocol.sendAll st cmds = (st, cmds) := by
  induction cmds with
  | nil => intro st _ _; rfl
  | cons c rest ih =>
    intro st hc ht
    simp only [TelloProtocol.sendAll, TelloProtocol.send_to_tello, hc, ht]
    simp [ih st hc ht]

theorem connection_made_output (st : CmdChannel) :
    TelloProtocol.connection_made st =
      ({ st with transport := some (), connected := true, command_queue := [] },
        st.command_queue ++ ["command"]) := by
  by_cases hq : st.command_queue.isEmpty
  · simp only [TelloProtocol.connection_made, TelloProtocol.process_command_queue, hq, if_pos]
    simp only [TelloProtocol.send_to_tello]
    simp only [List.isEmpty_iff] at hq
    simp [hq]
  · simp only [TelloProtocol.connection_made, TelloProtocol.process_command_queue, hq,
      Bool.false_eq_true, if_false]
    rw [sendAll_connected st.command_queue
      { st with transport := some (), connected := true } rfl rfl]
    simp [TelloProtocol.send_to_tello]

/-- C4: a command sent while the channel is not Connected is appended to the
pending queue and the call transmits nothing (and returns without error); on
the transition to Connected (`connection_made`) every queued command is
transmitted exactly once, in enqueue order, before the liveness probe
"command", and the queue is cleared after the flush. -/
theorem pending_queue_flushed_in_order (st : CmdChannel) (m : String)
    (hd : st.connected = false) :
    TelloProtocol.send_to_tello st m =
        ({ st with command_queue := st.command_queue ++ [m] }, [])
    ∧ (∀ st2 : CmdChannel,
        (TelloProtocol.connection_made st2).2 = st2.command_queue ++ ["command"]
        ∧ (TelloProtocol.connection_made st2).1.command_queue = []) := by
  refine ⟨by simp [TelloProtocol.send_to_tello, hd], fun st2 => ?_⟩
  rw [connection_made_output st2]
  exact ⟨rfl, rfl⟩

/-- Witness for C4: sending "x" while disconnected queues it behind "up", and
the next `connection_made` transmits "up", "x", then the probe. -/
theorem pending_queue_flushed_in_order_witness :
    TelloProtocol.send_to_tello { initCmdChannel with command_queue := ["up"] } "x" =
        ({ initCmdChannel with command_queue := ["up", "x"] }, [])
    ∧ (TelloProtocol.connection_made
        { initCmdChannel with command_queue := ["up", "x"] }).2 =
        ["up", "x", "command"] := by
  have h := pending_queue_flushed_in_order
    { initCmdChannel with command_queue := ["up"] } "x" rfl
  exact ⟨h.1, (h.2 { initCmdChannel with command_queue := ["up", "x"] }).1⟩

/-- C10: a command sent while `connected` is true but the transport is `None`
is neither transmitted nor queued: the state is unchanged and nothing is
sent, so a later transition to Connected transmits only the previously queued
commands followed by the probe — never this command. -/
theorem send_dropped_without_transport (st : CmdChannel) (m : String)
    (hc : st.connected = true) (ht : st.transport = none) :
    TelloProtocol.send_to_tello st m = (st, [])
    ∧ (TelloProtocol.connection_made (TelloProtocol.send_to_tello st m).1).2 =
        st.command_queue ++ ["command"] := by
  have h1 : TelloProtocol.send_to_tello st m = (st, []) := by
    simp [TelloProtocol.send_to_tello, hc, ht]
  refine ⟨h1, ?_⟩
  rw [h1]
  rw [connection_made_output st]

/-- Witness for C10: with `connected = true` and no transport, "land" is
dropped and a later `connection_made` sends only the probe. -/
theorem send_dropped_without_transport_witness :
    TelloProtocol.send_to_tello { initCmdChannel with connected := true } "land" =
        ({ initCmdChannel with connected := true }, [])
    ∧ (TelloProtocol.connection_made
        (TelloProtocol.send_to_tello
          { initCmdChannel with connected := true } "land").1).2 = ["command"] := by
  have h := send_dropped_without_transport { initCmdChannel with connected := true }
    "land" rfl rfl
  exact ⟨h.1, h.2⟩

/-! ### Claims about the reconnection backoff -/

theorem reconnectDelays_step (conn : ℕ → Bool) (retries : ℕ) (delay : ℚ)
    (h1 : conn retries = false) (h2 : retries < 10) :
    reconnectDelays conn retries delay =
      delay :: reconnectDelays conn (retries + 1) (min 30 (delay * (3 / 2))) := by
  rw [reconnectDelays.eq_def, dif_pos ⟨h1, h2⟩]

theorem reconnectDelays_stop (conn : ℕ → Bool) (retries : ℕ) (delay : ℚ)
    (h : ¬(conn retries = false ∧ retries < 10)) :
    reconnectDelays conn retries delay = [] := by
  rw [reconnectDelays.eq_def, dif_neg h]

theorem reconnectDelays_length_le (conn : ℕ → Bool) :
    ∀ n retries delay, 10 - retries ≤ n →
      (reconnectDelays conn retries delay).length ≤ 10 - retries := by
  intro n
  induction n with
  | zero =>
    intro retries delay h
    have hnc : ¬(conn retries = false ∧ retries < 10) := by
      intro hcon
      omega
    rw [reconnectDelays_stop conn retries delay hnc]
    simp
  | succ n ih =>
    intro retries delay h
    by_cases hc : conn retries = false ∧ retries < 10
    · rw [reconnectDelays_step conn retries delay hc.1 hc.2]
      have h2 := ih (retries + 1) (min 30 (delay * (3 / 2))) (by omega)
      simp only [List.length_cons]
      omega
    · rw [reconnectDelays_stop conn retries delay hc]
      simp

/-- C5: when no reconnection attempt succeeds, the delays slept between
attempts are exactly the sequence starting at 5 with each subsequent delay
`min(30, prev * 1.5)`, ten attempts are made, the loop then terminates and
logs the unhealthy condition; and for every behaviour of `connected`, at most
ten attempts are ever made. -/
theorem reconnect_backoff_policy (conn : ℕ → Bool) (h : ∀ i, conn i = false) :
    tello_reconnect conn =
        ([5, 15 / 2, 45 / 4, 135 / 8, 405 / 16, 30, 30, 30, 30, 30], true)
    ∧ (∀ conn2 : ℕ → Bool, (tello_reconnect conn2).1.length ≤ 10) := by
  constructor
  · have hds : reconnectDelays conn 0 5 =
        [5, 15 / 2, 45 / 4, 135 / 8, 405 / 16, 30, 30, 30, 30, 30] := by
      rw [reconnectDelays_step _ _ _ (h 0) (by norm_num),
        reconnectDelays_step _ _ _ (h 1) (by norm_num),
        reconnectDelays_step _ _ _ (h 2) (by norm_num),
        reconnectDelays_step _ _ _ (h 3) (by norm_num),
        reconnectDelays_step _ _ _ (h 4) (by norm_num),
        reconnectDelays_step _ _ _ (h 5) (by norm_num),
        reconnectDelays_step _ _ _ (h 6) (by norm_num),
        reconnectDelays_step _ _ _ (h 7) (by norm_num),
        reconnectDelays_step _ _ _ (h 8) (by norm_num),
        reconnectDelays_step _ _ _ (h 9) (by norm_num),
        reconnectDelays_stop _ _ _ (by simp [h 10])]
      norm_num [min_def]
    unfold tello_reconnect
    rw [hds]
    simp [h]
  · intro conn2
    unfold tello_reconnect
    simpa using reconnectDelays_length_le conn2 10 0 5 (by omega)

/-- Witness for C5: with every attempt failing, the delay list and the
unhealthy report are as stated. -/
theorem reconnect_backoff_policy_witness :
    tello_reconnect (fun _ => false) =
        ([5, 15 / 2, 45 / 4, 135 / 8, 405 / 16, 30, 30, 30, 30, 30], true) :=
  (reconnect_backoff_policy (fun _ => false) (fun _ => rfl)).1

/-! ### Claim about the health monitor -/

/-- C6: on a health-monitor tick (period `health_check_interval = 10`), a
channel that has never received a datagram (`last_response_time` still its
initial 0) is never flagged unhealthy and no probe is sent, regardless of the
elapsed time; a connected channel that has received a datagram and has been
silent for more than 15 time units gets flagged and exactly one probe
"command" is sent on that tick. -/
theorem health_monitor_silence_rules (ex conn : Bool) (last now : ℚ) :
    health_check_interval = 10
    ∧ (last = 0 →
        healthMonitorTick ex conn last now = { warned := false, sends := [] })
    ∧ (ex = true → conn = true → 0 < last → health_silence_threshold < now - last →
        healthMonitorTick ex conn last now = { warned := true, sends := ["command"] }) := by
  refine ⟨rfl, ?_, ?_⟩
  · intro hlast
    subst hlast
    unfold healthMonitorTick
    by_cases hec : ex = true ∧ conn = true
    · rw [if_pos hec]
      have hno : ¬((0 : ℚ) < 0 ∧ health_silence_threshold < now - 0) := by
        intro hcon
        exact absurd hcon.1 (lt_irrefl 0)
      rw [if_neg hno]
    · rw [if_neg hec]
  · intro hex hconn hlast hsil
    unfold healthMonitorTick
    rw [if_pos ⟨hex, hconn⟩, if_pos ⟨hlast, hsil⟩]

/-- Witness for C6: a tick at time 1000 with no datagram ever received sends
nothing; a tick with `last = 1`, `now = 17` sends exactly one probe. -/
theorem health_monitor_silence_rules_witness :
    healthMonitorTick true true 0 1000 = { warned := false, sends := [] }
    ∧ healthMonitorTick true true 1 17 = { warned := true, sends := ["command"] } :=
  ⟨(health_monitor_silence_rules true true 0 1000).2.1 rfl,
   (health_monitor_silence_rules true true 1 17).2.2 rfl rfl (by norm_num)
     (by norm_num [health_silence_threshold])⟩

/-! ### Claims about the WebSocket registry and broadcast -/

/-- C7: on every broadcast, each registered client is attempted with its own
outcome, independently of every other client's outcome — two send behaviours
that agree on a client produce the same attempt and outcome for that client,
whatever failures or timeouts the others produce — and the gathered outcomes
are returned as values, never raised; moreover the command channel's datagram
ingestion only schedules the broadcast and completes immediately, its
resulting state independent of any client. -/
theorem broadcast_failure_isolated (clients : List WSClient)
    (sendA sendB : WSClient → SendOutcome) (c : WSClient)
    (hc : c ∈ clients) (hagree : sendA c = sendB c) :
    (c, sendA c) ∈ broadcast_to_websockets clients sendA
    ∧ (c, sendA c) ∈ broadcast_to_websockets clients sendB
    ∧ (∀ (st : CmdChannel) (msg : String) (now : ℚ),
        TelloProtocol.datagram_received st msg now =
          ({ st with last_response_time := now },
            [{ origin := "command", data := msg }])) := by
  have hne : clients.isEmpty = false := by
    cases clients with
    | nil => cases hc
    | cons a rest => rfl
  refine ⟨?_, ?_, fun st msg now => rfl⟩
  · unfold broadcast_to_websockets
    rw [hne]
    simp only [Bool.false_eq_true, if_false]
    exact List.mem_map_of_mem (fun c2 => (c2, sendA c2)) hc
  · unfold broadcast_to_websockets
    rw [hne]
    simp only [Bool.false_eq_true, if_false]
    rw [hagree]
    exact List.mem_map_of_mem (fun c2 => (c2, sendB c2)) hc

/-- Witness for C7: client 0 succeeds identically whether client 1 raises or
times out. -/
theorem broadcast_failure_isolated_witness :
    (0, SendOutcome.ok) ∈ broadcast_to_websockets [0, 1]
        (fun c => if c = 0 then SendOutcome.ok else SendOutcome.failed "boom")
    ∧ (0, SendOutcome.ok) ∈ broadcast_to_websockets [0, 1]
        (fun c => if c = 0 then SendOutcome.ok else SendOutcome.timedOut) := by
  have h := broadcast_failure_isolated [0, 1]
    (fun c => if c = 0 then SendOutcome.ok else SendOutcome.failed "boom")
    (fun c => if c = 0 then SendOutcome.ok else SendOutcome.timedOut)
    0 (by simp) rfl
  exact ⟨h.1, h.2.1⟩

/-- C9: registering the same client handle twice and unregistering once
leaves the registry empty (and the `set.remove` raises no `KeyError`):
`register` is idempotent on the membership set. -/
theorem register_twice_unregister_empty (c : WSClient) :
    ws_unregister (ws_register (ws_register connected_websockets_init c) c) c =
      some ∅ := by
  unfold ws_register ws_unregister connected_websockets_init
  rw [Finset.insert_idem]
  rw [if_pos (Finset.mem_insert_self c ∅)]
  rw [Finset.erase_insert (Finset.not_mem_empty c)]

/-! ### Claim about the reconnect-requested signal -/

/-- C1 (evidence of the code bug): after `TelloProtocol._reconnect` sets
`command_protocol.need_reconnect = True`, any number of `_main_loop`
iterations performs no transport rebuild, no settle wait and no re-probe, and
never clears the signal: the supervising loop reads
`tello_bridge.need_reconnect`, a distinct binding created by the
`from ... import need_reconnect` statement, which no code ever sets to True.
The claimed detect-rebuild-wait-probe-consume behaviour therefore never
happens. -/
theorem mainloop_never_sees_reconnect_signal (n : ℕ) :
    (mainLoopIter^[n] (reconnectSignal initBridgeFlags)).rebuilds = 0
    ∧ (mainLoopIter^[n] (reconnectSignal initBridgeFlags)).settle_waits = []
    ∧ (mainLoopIter^[n] (reconnectSignal initBridgeFlags)).probes_after_rebuild = 0
    ∧ (mainLoopIter^[n]
        (reconnectSignal initBridgeFlags)).command_protocol_need_reconnect = true := by
  have hfix : mainLoopIter (reconnectSignal initBridgeFlags) =
      reconnectSignal initBridgeFlags := rfl
  rw [Function.iterate_fixed hfix n]
  exact ⟨rfl, rfl, rfl, rfl⟩

end TelloWSBridge
